import Mathlib

set_option maxRecDepth 100000

/-!
Shallow embedding of the manifest parsing and verification engine of
steakknife/sha3sum (src/sha3sum.go, plus a second revision of the same
program in src/unnamed/part_000).

Lines of manifest text are modelled as `List Char` (a Go string of runes);
a manifest resource is a list of its physical lines, as reassembled by the
bufio ReadLine loop in readHashes.  The SHA3/keccak digest primitive and
the file system are external collaborators and appear as function
parameters.  Process death through die and dieerr (os.Exit(1)) is modelled
by a dedicated result constructor, as is a Go runtime panic.
-/

/-- Character class `[0-9A-Fa-f]` used by both manifest line regexps. -/
def isHexChar (c : Char) : Bool :=
  ('0' ≤ c ∧ c ≤ '9') ∨ ('a' ≤ c ∧ c ≤ 'f') ∨ ('A' ≤ c ∧ c ≤ 'F')

/-- validAlgorithm from src/sha3sum.go lines 190-195. -/
def validAlgorithm (algorithm : Nat) : Bool :=
  algorithm = 224 ∨ algorithm = 256 ∨ algorithm = 384 ∨ algorithm = 512

/-- The six return values of parseTagHash / parseNormalHash
(hash, fname, algorithm, portable, binary, err).  Go zero values are
empty lists, 0 and false; `err = none` models a nil error. -/
structure ParseOut where
  hash : List Char
  fname : List Char
  algorithm : Nat
  portable : Bool
  binary : Bool
  err : Option String
deriving DecidableEq

/-- Behaviour of parseNormalHash (src/sha3sum.go lines 151-180) once the
line has been decomposed at the first non-hex character: `H` is the
maximal leading `[0-9A-Fa-f]` run of the line and `' ' :: rest` the
remainder.  The regexp `([0-9A-Fa-f][0-9A-Fa-f]*)[ ][ ]*([*?])?(.+)` with
leftmost-first submatch semantics matches exactly when `H` is nonempty,
`rest` is nonempty and `rest` has no newline (the dot never crosses a
newline and the match is anchored at both ends); the mode-character
group takes a leading `*` or `?` of the post-space text only when at
least one character is left for `(.+)`, and when the remainder is all
spaces the backtracking leaves a single space as the filename.  The Go
code then infers the algorithm from the hex length (any other length is
the "bad hash" error, returned after the hash field was already
assigned), and the empty-filename check of the source is unreachable. -/
def parseNormalAfter (H rest : List Char) : ParseOut :=
  if H = [] ∨ rest = [] ∨ ¬ (∀ c ∈ rest, c ≠ '\n') then
    ⟨[], [], 0, false, false, some "bad checksum line"⟩
  else if H.length = 56 ∨ H.length = 64 ∨ H.length = 96 ∨ H.length = 128 then
    match rest.dropWhile (· == ' ') with
    | [] => ⟨H, [' '], H.length * 4, false, false, none⟩
    | c :: cs =>
      if (c = '*' ∨ c = '?') ∧ cs ≠ [] then
        ⟨H, cs, H.length * 4, decide (c = '?'), decide (c = '*'), none⟩
      else
        ⟨H, c :: cs, H.length * 4, false, false, none⟩
  else
    ⟨H, [], 0, false, false, some "bad hash"⟩

/-- parseNormalHash from src/sha3sum.go lines 151-180 (plain grammar
`hex  [*|?]filename`).  The line is split at the first character that is
not in `[0-9A-Fa-f]`; the regexp requires a space there. -/
def parseNormalHash (line : List Char) : ParseOut :=
  match line.dropWhile isHexChar with
  | ' ' :: rest => parseNormalAfter (line.takeWhile isHexChar) rest
  | _ => ⟨[], [], 0, false, false, some "bad checksum line"⟩

/-- parseTagHash from src/sha3sum.go lines 114-149, tagged grammar
`SHA3-ddd (c) = hex` per the regexp
`SHA3-([0-9][0-9][0-9]) \x28([^)])\x29[ ]*=[ ]*([0-9A-Fa-f][0-9A-Fa-f]*)`
anchored at both ends.  The filename group of the source regexp matches
exactly one character different from a closing parenthesis.  Atoi on the
three digits never fails; the empty-filename check of the source is
unreachable; on the "bad hash" error the hash, fname and algorithm
returns were already assigned, on "bad algorithm" only the algorithm. -/
def parseTagHash (line : List Char) : ParseOut :=
  match line with
  | 'S' :: 'H' :: 'A' :: '3' :: '-' :: d1 :: d2 :: d3 :: ' ' :: '(' :: c :: ')' :: rest =>
    if d1.isDigit ∧ d2.isDigit ∧ d3.isDigit ∧ c ≠ ')' then
      match rest.dropWhile (· == ' ') with
      | '=' :: rest2 =>
        if rest2.dropWhile (· == ' ') ≠ [] ∧
            (∀ x ∈ rest2.dropWhile (· == ' '), isHexChar x = true) then
          if validAlgorithm (100 * (d1.toNat - 48) + 10 * (d2.toNat - 48) + (d3.toNat - 48)) then
            if (rest2.dropWhile (· == ' ')).length =
                (100 * (d1.toNat - 48) + 10 * (d2.toNat - 48) + (d3.toNat - 48)) / 4 then
              ⟨rest2.dropWhile (· == ' '), [c],
                100 * (d1.toNat - 48) + 10 * (d2.toNat - 48) + (d3.toNat - 48),
                false, false, none⟩
            else
              ⟨rest2.dropWhile (· == ' '), [c],
                100 * (d1.toNat - 48) + 10 * (d2.toNat - 48) + (d3.toNat - 48),
                false, false, some "bad hash"⟩
          else
            ⟨[], [], 100 * (d1.toNat - 48) + 10 * (d2.toNat - 48) + (d3.toNat - 48),
              false, false, some "bad algorithm"⟩
        else ⟨[], [], 0, false, false, some "bad checksum line"⟩
      | _ => ⟨[], [], 0, false, false, some "bad checksum line"⟩
    else ⟨[], [], 0, false, false, some "bad checksum line"⟩
  | _ => ⟨[], [], 0, false, false, some "bad checksum line"⟩

/-- parseHash from src/sha3sum.go lines 182-188. -/
def parseHash (line : List Char) (tag : Bool) : ParseOut :=
  if tag then parseTagHash line else parseNormalHash line

/-- The five sequences returned by readHashes (src/sha3sum.go line 197). -/
structure ReadOut where
  hashes : List (List Char)
  filenames : List (List Char)
  algorithms : List Nat
  portables : List Bool
  binaries : List Bool
deriving DecidableEq

/-- readHashes from src/sha3sum.go lines 197-230, over the list of
physical lines of the manifest (the ReadLine prefix loop of the source
reassembles arbitrarily long lines; a line here is one reassembled line).
A parse failure under strict calls dieerr, modelled as `Except.error`
with that parse error; otherwise the five partial results of parseHash
are appended for every line, malformed or not. -/
def readHashes (tag strict : Bool) : List (List Char) → Except String ReadOut
  | [] => .ok ⟨[], [], [], [], []⟩
  | l :: ls =>
    match strict, (parseHash l tag).err with
    | true, some e => .error e
    | _, _ =>
      match readHashes tag strict ls with
      | .error e2 => .error e2
      | .ok r =>
        .ok ⟨(parseHash l tag).hash :: r.hashes,
             (parseHash l tag).fname :: r.filenames,
             (parseHash l tag).algorithm :: r.algorithms,
             (parseHash l tag).portable :: r.portables,
             (parseHash l tag).binary :: r.binaries⟩

/-- The manifest line written by hashFiles (src/sha3sum.go lines 243-253),
without the trailing newline: tagged `SHA3-%d (%s) = %s`, plain
`%s  ` then `?` for portable else `*` for binary, then the filename. -/
def formatEntry (hash fname : List Char) (algorithm : Nat) (portable binary tag : Bool) :
    List Char :=
  if tag then
    ('S' :: 'H' :: 'A' :: '3' :: '-' :: []) ++ (Nat.repr algorithm).toList ++
      (' ' :: '(' :: []) ++ fname ++ (')' :: ' ' :: '=' :: ' ' :: []) ++ hash
  else
    hash ++ (' ' :: ' ' :: []) ++
      (if portable then ['?'] else if binary then ['*'] else []) ++ fname

/-- Value of one hex digit as in encoding/hex. -/
def hexVal (c : Char) : Option Nat :=
  if '0' ≤ c ∧ c ≤ '9' then some (c.toNat - 48)
  else if 'a' ≤ c ∧ c ≤ 'f' then some (c.toNat - 87)
  else if 'A' ≤ c ∧ c ≤ 'F' then some (c.toNat - 55)
  else none

/-- hex.DecodeString from encoding/hex as used by checkFiles: fails on an
odd-length input or any non-hex character, otherwise yields the bytes. -/
def hexDecode : List Char → Option (List Nat)
  | [] => some []
  | c1 :: c2 :: rest =>
    match hexVal c1, hexVal c2, hexDecode rest with
    | some v1, some v2, some bs => some ((16 * v1 + v2) :: bs)
    | _, _, _ => none
  | _ :: [] => none

/-- Modelled from the spec: `securecompare.Equal` of the external
github.com/steakknife/securecompare package (not part of this
repository) is a constant-time byte-slice equality; its functional
behaviour is equality of the two byte strings. -/
def secureEqual (a b : List Nat) : Bool := a == b

/-- One iteration body of the text-mode loop of hashFile
(src/sha3sum.go lines 93-98): the source compares `line[:linelen]`, that
is the whole line, against a lone carriage return, and only then drops
the final character. -/
def textLineOut (l : List Char) : List Char :=
  if l = ['\r'] then l.dropLast else l

/-- The byte stream written to the digest by the text-mode branch of
hashFile (src/sha3sum.go lines 84-99): ReadString yields each segment up
to and including a newline; at io.EOF the loop breaks before writing, so
a final unterminated segment is dropped. -/
def textFeedAux : List Char → List Char → List Char
  | _, [] => []
  | acc, c :: cs =>
    if c = '\n' then
      textLineOut (acc.reverse ++ ['\n']) ++ textFeedAux [] cs
    else
      textFeedAux (c :: acc) cs

/-- Text-mode feed: runs the ReadString loop from an empty pending line. -/
def textFeed (content : List Char) : List Char := textFeedAux [] content

/-- The byte stream hashFile (src/sha3sum.go lines 70-100) feeds to the
digest accumulator for a given file content: raw bytes when binary or
portable is set or the host is not windows, the text-mode stream
otherwise. -/
def hashFeed (content : List Char) (portable binary windows : Bool) : List Char :=
  if binary || portable || !windows then content else textFeed content

/-- Outcome of running a piece of the program: a normal return, a
returned non-nil error, process death through die or dieerr
(os.Exit(1)), or a Go runtime panic. -/
inductive ProcResult (α : Type) where
  | ok : α → ProcResult α
  | err : String → ProcResult α
  | died : String → ProcResult α
  | panicked : String → ProcResult α
deriving DecidableEq

/-- hashFile from src/sha3sum.go lines 50-112 over an abstract file
system `fs` (filename to content, none when the file cannot be opened;
standard input is the entry at "-") and abstract digest collaborator
`digest` (algorithm and fed bytes to lowercase hex).  An open failure
calls dieerr, killing the process; a non-EOF read error also dies (line
103), so a non-nil error is never returned to the caller.  For an
algorithm outside the switch the hash.Hash interface stays nil and Go
panics when it is used. -/
def hashFile (fs : List Char → Option (List Char)) (digest : Nat → List Char → List Char)
    (filename : List Char) (algorithm : Nat) (portable binary windows : Bool) :
    ProcResult (List Char) :=
  match fs filename with
  | none => .died ("open " ++ String.mk filename)
  | some content =>
    if validAlgorithm algorithm then
      .ok (digest algorithm (hashFeed content portable binary windows))
    else
      .panicked "nil hash"

/-- The per-entry loop of checkFiles (src/sha3sum.go lines 264-301),
carrying the good and bad counters.  The branch for a non-nil error
returned by hashFile mirrors dead source code (hashFile dies instead of
returning).  Decode failures return the error under strict and skip the
entry otherwise.  The final return value .ok (good, bad) corresponds to
checkFiles returning a nil error. -/
def checkLoop (fs : List Char → Option (List Char)) (digest : Nat → List Char → List Char)
    (binaryFlag portableFlag strictFlag windows : Bool) :
    List (List Char) → List (List Char) → List Nat → List Bool → List Bool →
    Nat → Nat → ProcResult (Nat × Nat)
  | eh :: ehs, fn :: fns, a :: als, p :: ps, b :: bs, good, bad =>
    match hashFile fs digest fn a (portableFlag || p) (binaryFlag || b) windows with
    | .died m => .died m
    | .panicked m => .panicked m
    | .err m =>
      if strictFlag then .err m
      else checkLoop fs digest binaryFlag portableFlag strictFlag windows ehs fns als ps bs good bad
    | .ok actualHex =>
      match hexDecode actualHex with
      | none =>
        if strictFlag then .err "invalid hex"
        else checkLoop fs digest binaryFlag portableFlag strictFlag windows ehs fns als ps bs good bad
      | some actual =>
        match hexDecode eh with
        | none =>
          if strictFlag then .err "invalid hex"
          else checkLoop fs digest binaryFlag portableFlag strictFlag windows ehs fns als ps bs good bad
        | some expected =>
          if secureEqual actual expected then
            checkLoop fs digest binaryFlag portableFlag strictFlag windows ehs fns als ps bs (good + 1) bad
          else
            checkLoop fs digest binaryFlag portableFlag strictFlag windows ehs fns als ps bs good (bad + 1)
  | _, _, _, _, _, good, bad => .ok (good, bad)

/-- checkFiles from src/sha3sum.go lines 258-306: reads the manifest
(readHashes dies on a strict parse failure), then verifies every entry in
order.  When the loop completes, the source prints the warning when bad
is positive and returns nil unconditionally (line 305); the good and bad
counters are exposed here as the value paired with that nil return. -/
def checkFiles (fs : List Char → Option (List Char)) (digest : Nat → List Char → List Char)
    (manifest : List (List Char))
    (binaryFlag portableFlag tagFlag strictFlag windows : Bool) : ProcResult (Nat × Nat) :=
  match readHashes tagFlag strictFlag manifest with
  | .error e => .died e
  | .ok r =>
    checkLoop fs digest binaryFlag portableFlag strictFlag windows
      r.hashes r.filenames r.algorithms r.portables r.binaries 0 0

/-- The algorithm guard of main in src/sha3sum.go lines 330-332:
`if algorithm == nil && !validAlgorithm(*algorithm) { die("bad algorithm") }`.
The first argument models whether the goopt.Int pointer is nil (it never
is: goopt.Int returns the address of a fresh variable). -/
def mainAlgorithmGuardDies (algorithmIsNil : Bool) (algorithm : Nat) : Bool :=
  algorithmIsNil && !(validAlgorithm algorithm)

/-- The algorithm guard of main in src/unnamed/part_000 lines 289-291:
`if algorithm == nil || !validAlgorithm(*algorithm) { die("bad algorithm") }`. -/
def mainAlgorithmGuardDiesP0 (algorithmIsNil : Bool) (algorithm : Nat) : Bool :=
  algorithmIsNil || !(validAlgorithm algorithm)

deriving instance DecidableEq for Except

lemma takeWhile_append_stop (p : Char → Bool) (l : List Char) (c : Char) (r : List Char)
    (hl : ∀ x ∈ l, p x = true) (hc : p c = false) :
    (l ++ c :: r).takeWhile p = l := by
  induction l with
  | nil => simp [List.takeWhile_cons, hc]
  | cons a t ih =>
    have ha : p a = true := hl a (by simp)
    simp [List.takeWhile_cons, ha, ih fun x hx => hl x (by simp [hx])]

lemma dropWhile_append_stop (p : Char → Bool) (l : List Char) (c : Char) (r : List Char)
    (hl : ∀ x ∈ l, p x = true) (hc : p c = false) :
    (l ++ c :: r).dropWhile p = c :: r := by
  induction l with
  | nil => simp [List.dropWhile_cons, hc]
  | cons a t ih =>
    have ha : p a = true := hl a (by simp)
    simp [List.dropWhile_cons, ha, ih fun x hx => hl x (by simp [hx])]

lemma isHexChar_space : isHexChar ' ' = false := by decide

lemma parseNormalHash_decomp (H rest : List Char) (hH : ∀ x ∈ H, isHexChar x = true) :
    parseNormalHash (H ++ ' ' :: rest) = parseNormalAfter H rest := by
  unfold parseNormalHash
  rw [dropWhile_append_stop isHexChar H ' ' rest hH isHexChar_space,
    takeWhile_append_stop isHexChar H ' ' rest hH isHexChar_space]
  rfl

/-- Claim C3: for every width w in 224/256/384/512 and every string of
exactly w/4 hex digits followed by two or more spaces and a non-empty
filename (a filename holds no newline), plain-grammar parsing succeeds
and infers algorithm width w; and for every hex-digit run whose length
is not 56, 64, 96 or 128, plain-grammar parsing returns a parse error. -/
theorem c3_plain_width_inference :
    (∀ (w : Nat) (hash fname : List Char) (k : Nat),
      (w = 224 ∨ w = 256 ∨ w = 384 ∨ w = 512) →
      (∀ x ∈ hash, isHexChar x = true) → hash.length = w / 4 →
      2 ≤ k → fname ≠ [] → (∀ x ∈ fname, x ≠ '\n') →
      (parseNormalHash (hash ++ (List.replicate k ' ' ++ fname))).err = none ∧
      (parseNormalHash (hash ++ (List.replicate k ' ' ++ fname))).algorithm = w) ∧
    (∀ (run fname : List Char) (k : Nat),
      (∀ x ∈ run, isHexChar x = true) →
      ¬(run.length = 56 ∨ run.length = 64 ∨ run.length = 96 ∨ run.length = 128) →
      2 ≤ k → fname ≠ [] →
      (parseNormalHash (run ++ (List.replicate k ' ' ++ fname))).err.isSome = true) := by
  constructor
  · intro w hash fname k hw hhex hlen hk hfne hfnl
    obtain ⟨k2, rfl⟩ : ∃ k2, k = k2 + 2 := ⟨k - 2, by omega⟩
    have hrep : List.replicate (k2 + 2) ' ' ++ fname =
        ' ' :: (' ' :: (List.replicate k2 ' ' ++ fname)) := by
      simp [List.replicate_succ]
    rw [hrep, parseNormalHash_decomp hash _ hhex]
    have hlen56 : hash.length = 56 ∨ hash.length = 64 ∨ hash.length = 96 ∨
        hash.length = 128 := by
      rcases hw with rfl | rfl | rfl | rfl <;> norm_num at hlen <;> simp [hlen]
    have halg : hash.length * 4 = w := by
      rcases hw with rfl | rfl | rfl | rfl <;> norm_num at hlen <;> omega
    have h1 : ¬ (hash = [] ∨ (' ' :: (List.replicate k2 ' ' ++ fname)) = [] ∨
        ¬ (∀ c ∈ (' ' :: (List.replicate k2 ' ' ++ fname)), c ≠ '\n')) := by
      push_neg
      refine ⟨?_, by simp, ?_⟩
      · intro he
        rw [he] at hlen56
        simp at hlen56
      · intro c hc
        rcases List.mem_cons.mp hc with rfl | hc
        · decide
        rcases List.mem_append.mp hc with hc | hc
        · have hc2 := List.eq_of_mem_replicate hc
          subst hc2
          decide
        · exact hfnl c hc
    unfold parseNormalAfter
    rw [if_neg h1, if_pos hlen56]
    constructor
    · split
      · rfl
      · split <;> rfl
    · split
      · exact halg
      · split <;> exact halg
  · intro run fname k hhex hnlen hk hfne
    obtain ⟨k2, rfl⟩ : ∃ k2, k = k2 + 2 := ⟨k - 2, by omega⟩
    have hrep : List.replicate (k2 + 2) ' ' ++ fname =
        ' ' :: (' ' :: (List.replicate k2 ' ' ++ fname)) := by
      simp [List.replicate_succ]
    rw [hrep, parseNormalHash_decomp run _ hhex]
    unfold parseNormalAfter
    by_cases h1 : run = [] ∨ (' ' :: (List.replicate k2 ' ' ++ fname)) = [] ∨
        ¬ (∀ c ∈ (' ' :: (List.replicate k2 ' ' ++ fname)), c ≠ '\n')
    · rw [if_pos h1]
      rfl
    · rw [if_neg h1, if_neg hnlen]
      rfl

/-- Witness for Claim C3 at width 256 with filename x after two spaces,
and a 2-character hex run for the error half. -/
theorem c3_plain_width_inference_witness :
    ((parseNormalHash (List.replicate 64 'a' ++ (List.replicate 2 ' ' ++ ['x']))).err = none ∧
      (parseNormalHash (List.replicate 64 'a' ++ (List.replicate 2 ' ' ++ ['x']))).algorithm
        = 256) ∧
    (parseNormalHash (['a', 'b'] ++ (List.replicate 2 ' ' ++ ['x']))).err.isSome = true :=
  ⟨c3_plain_width_inference.1 256 (List.replicate 64 'a') ['x'] 2 (by simp)
      (by decide) (by decide) (by decide) (by decide) (by decide),
    c3_plain_width_inference.2 ['a', 'b'] ['x'] 2 (by decide) (by decide)
      (by decide) (by decide)⟩

/-- Claim C4: tagged-grammar parsing of a line succeeds only when the
declared width is one of 224/256/384/512, the hex digest has exactly
width/4 characters, and the filename is non-empty; any line violating
one of these conditions yields a parse error rather than an entry. -/
theorem c4_tagged_validation (line : List Char)
    (h : (parseTagHash line).err = none) :
    validAlgorithm (parseTagHash line).algorithm = true ∧
    (parseTagHash line).hash.length = (parseTagHash line).algorithm / 4 ∧
    (parseTagHash line).fname ≠ [] := by
  revert h
  unfold parseTagHash
  split
  · split
    · split
      · split
        · split
          · split
            · intro _
              refine ⟨by assumption, by assumption, by simp⟩
            · intro h
              simp at h
          · intro h
            simp at h
        · intro h
          simp at h
      · intro h
        simp at h
    · intro h
      simp at h
  · intro h
    simp at h

/-- Witness for Claim C4: a well-formed tagged line for width 224. -/
theorem c4_tagged_validation_witness :
    validAlgorithm (parseTagHash (String.toList "SHA3-224 (x) = " ++
        List.replicate 56 'a')).algorithm = true ∧
    (parseTagHash (String.toList "SHA3-224 (x) = " ++
        List.replicate 56 'a')).hash.length =
      (parseTagHash (String.toList "SHA3-224 (x) = " ++
        List.replicate 56 'a')).algorithm / 4 ∧
    (parseTagHash (String.toList "SHA3-224 (x) = " ++
        List.replicate 56 'a')).fname ≠ [] :=
  c4_tagged_validation (String.toList "SHA3-224 (x) = " ++ List.replicate 56 'a')
    (by decide)

lemma readHashes_nonstrict_ok (tag : Bool) (lines : List (List Char)) :
    readHashes tag false lines =
      .ok ⟨lines.map (fun l => (parseHash l tag).hash),
           lines.map (fun l => (parseHash l tag).fname),
           lines.map (fun l => (parseHash l tag).algorithm),
           lines.map (fun l => (parseHash l tag).portable),
           lines.map (fun l => (parseHash l tag).binary)⟩ := by
  induction lines with
  | nil => rfl
  | cons l ls ih =>
    unfold readHashes
    rw [ih]
    cases (parseHash l tag).err <;> rfl

lemma readHashes_strict_first_error (tag : Bool) (pre : List (List Char))
    (bad : List Char) (post : List (List Char)) (e : String)
    (hpre : ∀ l ∈ pre, (parseHash l tag).err = none)
    (hbad : (parseHash bad tag).err = some e) :
    readHashes tag true (pre ++ bad :: post) = .error e := by
  induction pre with
  | nil =>
    rw [List.nil_append]
    unfold readHashes
    rw [hbad]
  | cons l ls ih =>
    rw [List.cons_append]
    unfold readHashes
    rw [hpre l (by simp), ih fun x hx => hpre x (by simp [hx])]

lemma readHashes_ok_eq (tag strict : Bool) (lines : List (List Char)) (out : ReadOut)
    (h : readHashes tag strict lines = .ok out) :
    out = ⟨lines.map (fun l => (parseHash l tag).hash),
           lines.map (fun l => (parseHash l tag).fname),
           lines.map (fun l => (parseHash l tag).algorithm),
           lines.map (fun l => (parseHash l tag).portable),
           lines.map (fun l => (parseHash l tag).binary)⟩ := by
  induction lines generalizing out with
  | nil =>
    unfold readHashes at h
    simp only [Except.ok.injEq] at h
    simp [← h]
  | cons l ls ih =>
    unfold readHashes at h
    split at h
    · exact absurd h (by simp)
    · split at h
      · exact absurd h (by simp)
      · next r heq =>
        simp only [Except.ok.injEq] at h
        rw [← h, ih r heq]
        simp

/-- Claim C5 counterexample: the plain line `ff  x` is malformed (hex run
of length 2), yet non-strict readHashes appends an entry whose hash field
is `ff`, not empty: the recorded placeholder does not have empty/zero
fields. -/
theorem c5_placeholder_counterexample :
    readHashes false false [String.toList "ff  x"] =
      .ok ⟨[['f', 'f']], [[]], [0], [false], [false]⟩ ∧
    ['f', 'f'] ≠ ([] : List Char) := by
  decide

/-- Claim C5 (amended): when reading a manifest with strict set, the
first line that fails to parse aborts the entire read with that parse
error; with strict unset, every malformed line still appends an entry
carrying whatever field values the parser had assigned before failing
(empty/zero only when the line matched no prefix of the grammar), so the
number of entries produced equals the number of physical lines read, in
line order. -/
theorem c5_read_policy_amended :
    (∀ (tag : Bool) (pre : List (List Char)) (bad : List Char)
        (post : List (List Char)) (e : String),
      (∀ l ∈ pre, (parseHash l tag).err = none) →
      (parseHash bad tag).err = some e →
      readHashes tag true (pre ++ bad :: post) = .error e) ∧
    (∀ (tag : Bool) (lines : List (List Char)),
      readHashes tag false lines =
        .ok ⟨lines.map (fun l => (parseHash l tag).hash),
             lines.map (fun l => (parseHash l tag).fname),
             lines.map (fun l => (parseHash l tag).algorithm),
             lines.map (fun l => (parseHash l tag).portable),
             lines.map (fun l => (parseHash l tag).binary)⟩) :=
  ⟨readHashes_strict_first_error, readHashes_nonstrict_ok⟩

/-- Witness for Claim C5: strict reading aborts on the malformed second
line `zz`; non-strict reading of the same malformed line keeps one entry
per line. -/
theorem c5_read_policy_amended_witness :
    readHashes false true
        [List.replicate 64 'a' ++ [' ', ' ', 'f'], String.toList "zz"] =
      .error "bad checksum line" ∧
    readHashes false false [String.toList "zz"] =
      .ok ⟨[String.toList "zz"].map (fun l => (parseHash l false).hash),
           [String.toList "zz"].map (fun l => (parseHash l false).fname),
           [String.toList "zz"].map (fun l => (parseHash l false).algorithm),
           [String.toList "zz"].map (fun l => (parseHash l false).portable),
           [String.toList "zz"].map (fun l => (parseHash l false).binary)⟩ :=
  ⟨c5_read_policy_amended.1 false [List.replicate 64 'a' ++ [' ', ' ', 'f']]
      (String.toList "zz") [] "bad checksum line" (by decide) (by decide),
    c5_read_policy_amended.2 false [String.toList "zz"]⟩

/-- Claim C10: whenever readHashes returns, the five returned sequences
have equal length, and element i of each is the corresponding field of
parseHash applied to the i-th physical line of the manifest. -/
theorem c10_parallel_sequences (tag strict : Bool) (lines : List (List Char))
    (out : ReadOut) (h : readHashes tag strict lines = .ok out) :
    (out.hashes.length = lines.length ∧ out.filenames.length = lines.length ∧
      out.algorithms.length = lines.length ∧ out.portables.length = lines.length ∧
      out.binaries.length = lines.length) ∧
    out.hashes = lines.map (fun l => (parseHash l tag).hash) ∧
    out.filenames = lines.map (fun l => (parseHash l tag).fname) ∧
    out.algorithms = lines.map (fun l => (parseHash l tag).algorithm) ∧
    out.portables = lines.map (fun l => (parseHash l tag).portable) ∧
    out.binaries = lines.map (fun l => (parseHash l tag).binary) := by
  have hout := readHashes_ok_eq tag strict lines out h
  subst hout
  simp

/-- Witness for Claim C10 on a concrete one-line manifest under the
plain grammar with strict unset. -/
theorem c10_parallel_sequences_witness :
    ((ReadOut.mk [['f', 'f']] [[]] [0] [false] [false]).hashes.length =
        [String.toList "ff  x"].length ∧
      (ReadOut.mk [['f', 'f']] [[]] [0] [false] [false]).filenames.length =
        [String.toList "ff  x"].length ∧
      (ReadOut.mk [['f', 'f']] [[]] [0] [false] [false]).algorithms.length =
        [String.toList "ff  x"].length ∧
      (ReadOut.mk [['f', 'f']] [[]] [0] [false] [false]).portables.length =
        [String.toList "ff  x"].length ∧
      (ReadOut.mk [['f', 'f']] [[]] [0] [false] [false]).binaries.length =
        [String.toList "ff  x"].length) ∧
    (ReadOut.mk [['f', 'f']] [[]] [0] [false] [false]).hashes =
      [String.toList "ff  x"].map (fun l => (parseHash l false).hash) ∧
    (ReadOut.mk [['f', 'f']] [[]] [0] [false] [false]).filenames =
      [String.toList "ff  x"].map (fun l => (parseHash l false).fname) ∧
    (ReadOut.mk [['f', 'f']] [[]] [0] [false] [false]).algorithms =
      [String.toList "ff  x"].map (fun l => (parseHash l false).algorithm) ∧
    (ReadOut.mk [['f', 'f']] [[]] [0] [false] [false]).portables =
      [String.toList "ff  x"].map (fun l => (parseHash l false).portable) ∧
    (ReadOut.mk [['f', 'f']] [[]] [0] [false] [false]).binaries =
      [String.toList "ff  x"].map (fun l => (parseHash l false).binary) :=
  c10_parallel_sequences false false [String.toList "ff  x"]
    ⟨[['f', 'f']], [[]], [0], [false], [false]⟩ (by decide)

/-- Claim C2 counterexample: the valid manifest entry with a 56-hex-digit
digest, the two-character filename ab, width 224 and default transfer
mode, formatted in the tagged grammar, does not parse back to the
original entry: the tagged regexp accepts exactly one filename
character, so the formatted line fails to parse at all. -/
theorem c2_roundtrip_counterexample :
    parseHash (formatEntry (List.replicate 56 'a') ['a', 'b'] 224 false false true) true ≠
      ⟨List.replicate 56 'a', ['a', 'b'], 224, false, false, none⟩ ∧
    (parseHash (formatEntry (List.replicate 56 'a') ['a', 'b'] 224 false false true)
        true).err = some "bad checksum line" := by
  decide

/-- Claim C2 (amended): round-trip of formatEntry followed by parseHash
holds in the plain grammar for every valid entry whose filename does not
begin with a space, an asterisk or a question mark (and holds no
newline), with the binary and portable modes mutually exclusive; in the
tagged grammar it holds exactly for entries whose filename is one single
character other than a closing parenthesis and whose transfer mode is
the default, since the tagged format neither accepts longer filenames
nor records mode flags. -/
theorem c2_roundtrip_amended :
    (∀ (hash fname : List Char) (w : Nat) (portable binary : Bool),
      (w = 224 ∨ w = 256 ∨ w = 384 ∨ w = 512) →
      (∀ x ∈ hash, isHexChar x = true) → hash.length = w / 4 →
      fname ≠ [] → (∀ x ∈ fname, x ≠ '\n') →
      fname.head? ≠ some ' ' → fname.head? ≠ some '*' → fname.head? ≠ some '?' →
      (portable = true → binary = false) →
      parseHash (formatEntry hash fname w portable binary false) false =
        ⟨hash, fname, w, portable, binary, none⟩) ∧
    (∀ (hash : List Char) (c : Char) (w : Nat),
      (w = 224 ∨ w = 256 ∨ w = 384 ∨ w = 512) →
      (∀ x ∈ hash, isHexChar x = true) → hash.length = w / 4 →
      c ≠ ')' →
      parseHash (formatEntry hash [c] w false false true) true =
        ⟨hash, [c], w, false, false, none⟩) := by
  constructor
  ·
    intro hash fname w portable binary hw hhex hlen hfne hfnl hh1 hh2 hh3 hpb
    obtain ⟨f0, ftl, rfl⟩ : ∃ f0 ftl, fname = f0 :: ftl := by
      cases fname with
      | nil => exact absurd rfl hfne
      | cons a b => exact ⟨a, b, rfl⟩
    have hf0s : f0 ≠ ' ' := fun he => hh1 (by simp [he])
    have hf0a : f0 ≠ '*' := fun he => hh2 (by simp [he])
    have hf0q : f0 ≠ '?' := fun he => hh3 (by simp [he])
    have hlen56 : hash.length = 56 ∨ hash.length = 64 ∨ hash.length = 96 ∨
        hash.length = 128 := by
      rcases hw with rfl | rfl | rfl | rfl <;> norm_num at hlen <;> simp [hlen]
    have halg : hash.length * 4 = w := by
      rcases hw with rfl | rfl | rfl | rfl <;> norm_num at hlen <;> omega
    have hne : hash ≠ [] := by
      intro he
      rw [he] at hlen56
      simp at hlen56
    cases portable with
    | true =>
      have hb := hpb rfl
      subst hb
      have hfmt : formatEntry hash (f0 :: ftl) w true false false =
          hash ++ ' ' :: (' ' :: ('?' :: f0 :: ftl)) := by
        simp [formatEntry]
      rw [show parseHash (formatEntry hash (f0 :: ftl) w true false false) false =
          parseNormalHash (formatEntry hash (f0 :: ftl) w true false false) from rfl,
        hfmt, parseNormalHash_decomp hash _ hhex]
      unfold parseNormalAfter
      rw [if_neg (by
        push_neg
        refine ⟨hne, by simp, ?_⟩
        intro x hx
        rcases List.mem_cons.mp hx with rfl | hx
        · decide
        rcases List.mem_cons.mp hx with rfl | hx
        · decide
        · exact hfnl x hx), if_pos hlen56]
      rw [show (' ' :: ('?' :: f0 :: ftl)).dropWhile (· == ' ') = '?' :: f0 :: ftl from by
        simp [List.dropWhile_cons]]
      simp [halg]
    | false =>
      cases binary with
      | true =>
        have hfmt : formatEntry hash (f0 :: ftl) w false true false =
            hash ++ ' ' :: (' ' :: ('*' :: f0 :: ftl)) := by
          simp [formatEntry]
        rw [show parseHash (formatEntry hash (f0 :: ftl) w false true false) false =
            parseNormalHash (formatEntry hash (f0 :: ftl) w false true false) from rfl,
          hfmt, parseNormalHash_decomp hash _ hhex]
        unfold parseNormalAfter
        rw [if_neg (by
          push_neg
          refine ⟨hne, by simp, ?_⟩
          intro x hx
          rcases List.mem_cons.mp hx with rfl | hx
          · decide
          rcases List.mem_cons.mp hx with rfl | hx
          · decide
          · exact hfnl x hx), if_pos hlen56]
        rw [show (' ' :: ('*' :: f0 :: ftl)).dropWhile (· == ' ') = '*' :: f0 :: ftl from by
          simp [List.dropWhile_cons]]
        simp [halg]
      | false =>
        have hfmt : formatEntry hash (f0 :: ftl) w false false false =
            hash ++ ' ' :: (' ' :: (f0 :: ftl)) := by
          simp [formatEntry]
        rw [show parseHash (formatEntry hash (f0 :: ftl) w false false false) false =
            parseNormalHash (formatEntry hash (f0 :: ftl) w false false false) from rfl,
          hfmt, parseNormalHash_decomp hash _ hhex]
        unfold parseNormalAfter
        rw [if_neg (by
          push_neg
          refine ⟨hne, by simp, ?_⟩
          intro x hx
          rcases List.mem_cons.mp hx with rfl | hx
          · decide
          · exact hfnl x hx), if_pos hlen56]
        rw [show (' ' :: (f0 :: ftl)).dropWhile (· == ' ') = f0 :: ftl from by
          simp [List.dropWhile_cons, hf0s]]
        simp [halg, hf0a, hf0q]
  ·
    intro hash c w hw hhex hlen hc
    obtain ⟨h0, ht, rfl⟩ : ∃ h0 ht, hash = h0 :: ht := by
      cases hash with
      | nil =>
        rcases hw with rfl | rfl | rfl | rfl <;> norm_num at hlen
      | cons a b => exact ⟨a, b, rfl⟩
    have hh0 : isHexChar h0 = true := hhex h0 (by simp)
    have hh0s : ¬ (h0 = ' ') := by
      intro he
      rw [he] at hh0
      exact absurd hh0 (by decide)
    rcases hw with rfl | rfl | rfl | rfl
    · norm_num at hlen
      have hfmt : formatEntry (h0 :: ht) [c] 224 false false true =
          'S' :: 'H' :: 'A' :: '3' :: '-' :: '2' :: '2' :: '4' :: ' ' :: '(' :: c :: ')' ::
            (' ' :: '=' :: ' ' :: (h0 :: ht)) := by
        simp [formatEntry, show (Nat.repr 224).data = ['2', '2', '4'] from by decide]
      rw [show (parseHash (formatEntry (h0 :: ht) [c] 224 false false true) true) =
          parseTagHash (formatEntry (h0 :: ht) [c] 224 false false true) from rfl, hfmt]
      simp only [parseTagHash]
      rw [if_pos ⟨by decide, by decide, by decide, hc⟩]
      rw [show (' ' :: '=' :: ' ' :: (h0 :: ht)).dropWhile (· == ' ') =
          '=' :: (' ' :: (h0 :: ht)) from by simp [List.dropWhile_cons]]
      have hhext : ∀ x ∈ ht, isHexChar x = true :=
        fun x hx => hhex x (List.mem_cons_of_mem h0 hx)
      simp [List.dropWhile_cons, hh0s, hh0, hhext,
        show 100 * ('2'.toNat - 48) + 10 * ('2'.toNat - 48) + ('4'.toNat - 48) = 224 from by decide,
        show validAlgorithm 224 = true from by decide, hlen]
      exact hhext
    · norm_num at hlen
      have hfmt : formatEntry (h0 :: ht) [c] 256 false false true =
          'S' :: 'H' :: 'A' :: '3' :: '-' :: '2' :: '5' :: '6' :: ' ' :: '(' :: c :: ')' ::
            (' ' :: '=' :: ' ' :: (h0 :: ht)) := by
        simp [formatEntry, show (Nat.repr 256).data = ['2', '5', '6'] from by decide]
      rw [show (parseHash (formatEntry (h0 :: ht) [c] 256 false false true) true) =
          parseTagHash (formatEntry (h0 :: ht) [c] 256 false false true) from rfl, hfmt]
      simp only [parseTagHash]
      rw [if_pos ⟨by decide, by decide, by decide, hc⟩]
      rw [show (' ' :: '=' :: ' ' :: (h0 :: ht)).dropWhile (· == ' ') =
          '=' :: (' ' :: (h0 :: ht)) from by simp [List.dropWhile_cons]]
      have hhext : ∀ x ∈ ht, isHexChar x = true :=
        fun x hx => hhex x (List.mem_cons_of_mem h0 hx)
      simp [List.dropWhile_cons, hh0s, hh0, hhext,
        show 100 * ('2'.toNat - 48) + 10 * ('5'.toNat - 48) + ('6'.toNat - 48) = 256 from by decide,
        show validAlgorithm 256 = true from by decide, hlen]
      exact hhext
    · norm_num at hlen
      have hfmt : formatEntry (h0 :: ht) [c] 384 false false true =
          'S' :: 'H' :: 'A' :: '3' :: '-' :: '3' :: '8' :: '4' :: ' ' :: '(' :: c :: ')' ::
            (' ' :: '=' :: ' ' :: (h0 :: ht)) := by
        simp [formatEntry, show (Nat.repr 384).data = ['3', '8', '4'] from by decide]
      rw [show (parseHash (formatEntry (h0 :: ht) [c] 384 false false true) true) =
          parseTagHash (formatEntry (h0 :: ht) [c] 384 false false true) from rfl, hfmt]
      simp only [parseTagHash]
      rw [if_pos ⟨by decide, by decide, by decide, hc⟩]
      rw [show (' ' :: '=' :: ' ' :: (h0 :: ht)).dropWhile (· == ' ') =
          '=' :: (' ' :: (h0 :: ht)) from by simp [List.dropWhile_cons]]
      have hhext : ∀ x ∈ ht, isHexChar x = true :=
        fun x hx => hhex x (List.mem_cons_of_mem h0 hx)
      simp [List.dropWhile_cons, hh0s, hh0, hhext,
        show 100 * ('3'.toNat - 48) + 10 * ('8'.toNat - 48) + ('4'.toNat - 48) = 384 from by decide,
        show validAlgorithm 384 = true from by decide, hlen]
      exact hhext
    · norm_num at hlen
      have hfmt : formatEntry (h0 :: ht) [c] 512 false false true =
          'S' :: 'H' :: 'A' :: '3' :: '-' :: '5' :: '1' :: '2' :: ' ' :: '(' :: c :: ')' ::
            (' ' :: '=' :: ' ' :: (h0 :: ht)) := by
        simp [formatEntry, show (Nat.repr 512).data = ['5', '1', '2'] from by decide]
      rw [show (parseHash (formatEntry (h0 :: ht) [c] 512 false false true) true) =
          parseTagHash (formatEntry (h0 :: ht) [c] 512 false false true) from rfl, hfmt]
      simp only [parseTagHash]
      rw [if_pos ⟨by decide, by decide, by decide, hc⟩]
      rw [show (' ' :: '=' :: ' ' :: (h0 :: ht)).dropWhile (· == ' ') =
          '=' :: (' ' :: (h0 :: ht)) from by simp [List.dropWhile_cons]]
      have hhext : ∀ x ∈ ht, isHexChar x = true :=
        fun x hx => hhex x (List.mem_cons_of_mem h0 hx)
      simp [List.dropWhile_cons, hh0s, hh0, hhext,
        show 100 * ('5'.toNat - 48) + 10 * ('1'.toNat - 48) + ('2'.toNat - 48) = 512 from by decide,
        show validAlgorithm 512 = true from by decide, hlen]
      exact hhext

/-- Witness for Claim C2 at a 64-hex-digit digest, plain filename xy and
tagged single-character filename x. -/
theorem c2_roundtrip_amended_witness :
    parseHash (formatEntry (List.replicate 64 'a') ['x', 'y'] 256 false false false)
        false = ⟨List.replicate 64 'a', ['x', 'y'], 256, false, false, none⟩ ∧
    parseHash (formatEntry (List.replicate 64 'a') ['x'] 256 false false true)
        true = ⟨List.replicate 64 'a', ['x'], 256, false, false, none⟩ :=
  ⟨c2_roundtrip_amended.1 (List.replicate 64 'a') ['x', 'y'] 256 false false
      (by simp) (by decide) (by decide) (by decide) (by decide) (by decide)
      (by decide) (by decide) (by decide),
    c2_roundtrip_amended.2 (List.replicate 64 'a') 'x' 256
      (by simp) (by decide) (by decide) (by decide)⟩

/-- File system for the C1 scenario: only the file f exists. -/
def c1Fs : List Char → Option (List Char) :=
  fun n => if n = ['f'] then some ['x'] else none

/-- Digest collaborator for the C1 scenario: every content hashes to 64
hex b characters, so the manifest digest of 64 a characters mismatches. -/
def c1Digest : Nat → List Char → List Char :=
  fun _ _ => List.replicate 64 'b'

/-- Claim C1 (code bug): a verification run with one FAILED entry
(badCount = 1 and 0 good) still makes checkFiles return a nil error
(the .ok outcome), so main exits 0; the source returns nil
unconditionally at src/sha3sum.go line 305 even though it just printed
the did-NOT-match warning. -/
theorem c1_mismatch_still_returns_nil :
    checkFiles c1Fs c1Digest [List.replicate 64 'a' ++ [' ', ' ', 'f']]
      false false false false false = .ok (0, 1) := by
  decide

/-- File system for the C6 scenario: the file g of the first manifest
entry does not exist, f of the second does and would verify OK. -/
def c6Fs : List Char → Option (List Char) :=
  fun n => if n = ['f'] then some ['x'] else none

/-- Digest collaborator for the C6 scenario. -/
def c6Digest : Nat → List Char → List Char :=
  fun _ _ => List.replicate 64 'b'

/-- Claim C6 (code bug): an entry naming a file that cannot be opened
kills the whole process from inside hashFile (dieerr, os.Exit(1)) with
strict unset as well as set: the first manifest entry names the missing
file g and the run dies there, never reaching the second entry, instead
of recording a per-entry failure and continuing as the claim states.
The error-handling branches of checkFiles for hashFile are dead code. -/
theorem c6_missing_file_kills_process :
    checkFiles c6Fs c6Digest
      [List.replicate 64 'a' ++ [' ', ' ', 'g'],
       List.replicate 64 'b' ++ [' ', ' ', 'f']]
      false false false false false = .died "open g" ∧
    checkFiles c6Fs c6Digest
      [List.replicate 64 'a' ++ [' ', ' ', 'g'],
       List.replicate 64 'b' ++ [' ', ' ', 'f']]
      false false false true false = .died "open g" := by
  decide

/-- Claim C7 (code bug): on a windows host in text mode (binary and
portable unset) the content bytes a CR LF are fed to the digest
accumulator completely unmodified, because the source compares the whole
line instead of its last character against a carriage return; hence the
CRLF and LF variants of the same text feed different byte streams and
produce different digests.  Binary and portable modes feed raw bytes, as
the claim says. -/
theorem c7_text_mode_keeps_carriage_return :
    hashFeed (String.toList "a\r\n") false false true = String.toList "a\r\n" ∧
    hashFeed (String.toList "a\n") false false true = String.toList "a\n" ∧
    String.toList "a\r\n" ≠ String.toList "a\n" ∧
    hashFeed (String.toList "a\r\n") false true true = String.toList "a\r\n" ∧
    hashFeed (String.toList "a\r\n") true false true = String.toList "a\r\n" := by
  decide

/-- Claim C9 (code bug): the algorithm guard of main in src/sha3sum.go
uses a conjunction with the always-false nil test of the goopt.Int
pointer, so it never dies for any width, 100 included, although 100 is
not a valid algorithm; the sibling revision in src/unnamed/part_000 uses
a disjunction and does reject width 100. -/
theorem c9_width_guard_never_fires :
    (∀ a : Nat, mainAlgorithmGuardDies false a = false) ∧
    validAlgorithm 100 = false ∧
    mainAlgorithmGuardDiesP0 false 100 = true :=
  ⟨fun _ => rfl, by decide, by decide⟩
